import Mathlib

/-!
Shallow embedding of the CSV-backed CRUD service in `src/main.py`.

The durable CSV file is the sole state; every handler reads it wholesale and,
for mutations, rewrites it wholesale.  Following the spec's scoping (the
storage medium is an external durable-table abstraction), the table is
modelled as a `List Item` in row order; a handler is a pure function from the
table read at entry to the HTTP-level response together with the table that is
durable when the handler returns (on an error branch the Python code raises
before any `write_csv`, so the returned table is the input table).

FastAPI routing is modelled as well (registration order matters for
`GET /items/count` versus `GET /items/{item_id}`).
-/

namespace CsvCrud

/-- A persisted record (`class Item` in main.py): one CSV data row. -/
structure Item where
  id : Int
  nome : String
  cognome : String
  codice_fiscale : String
deriving Repr, DecidableEq, Inhabited

/-- Request body of `POST /items/` (`class ItemCreate`). -/
structure ItemCreate where
  nome : String
  cognome : String
  codice_fiscale : String
deriving Repr, DecidableEq

/-- Request body of `PUT /items/{item_id}` (`class ItemUpdate`): every field
optional, `none` meaning absent from the JSON body. -/
structure ItemUpdate where
  nome : Option String := none
  cognome : Option String := none
  codice_fiscale : Option String := none
deriving Repr, DecidableEq

/-- The durable table: the data rows of `data.csv` in file order. -/
abbrev Table := List Item

/-- Responses a handler can produce, at the granularity the claims need.
`validationError` is FastAPI's 422 response produced when a path parameter
fails type validation, before any handler body runs. -/
inductive Resp where
  | ok (item : Item)
  | okList (items : List Item)
  | okCount (n : Nat)
  | okMessage (msg : String)
  | httpError (status : Nat) (detail : String)
  | validationError
deriving Repr, DecidableEq

/-- Python truthiness of an `Optional[str]`: `None` and `""` are falsy.
This is the guard `if item_update.codice_fiscale:` in `update_item`. -/
def truthy (o : Option String) : Bool :=
  match o with
  | none => false
  | some s => !(s == "")

/-- `get_next_id` in main.py: `1` if the table is empty, else
`int(df['id'].max()) + 1`.  (The source re-reads the file here; between the
two reads of one request nothing was written, so it sees the same table.) -/
def get_next_id (df : Table) : Int :=
  match df with
  | [] => 1
  | r :: rs => (rs.map (fun x => x.id)).foldl max r.id + 1

/-- `create_item` (POST /items/): reject when the codice_fiscale is already a
value of the codice_fiscale column, else append a fresh row and return it. -/
def create_item (item : ItemCreate) (df : Table) : Resp × Table :=
  if !df.isEmpty && df.any (fun r => r.codice_fiscale == item.codice_fiscale) then
    (.httpError 400 "Codice fiscale already exists", df)
  else
    let new_item : Item :=
      { id := get_next_id df
        nome := item.nome
        cognome := item.cognome
        codice_fiscale := item.codice_fiscale }
    (.ok new_item, df ++ [new_item])

/-- `get_all_items` (GET /items/): all rows in table order; `[]` when empty. -/
def get_all_items (df : Table) : Resp × Table :=
  if df.isEmpty then (.okList [], df)
  else (.okList df, df)

/-- `get_item` (GET /items/{item_id}): first row whose id matches, else 404.
(`df[df['id'] == item_id]` then `.iloc[0]`.) -/
def get_item (item_id : Int) (df : Table) : Resp × Table :=
  if df.isEmpty then (.httpError 404 "Item not found", df)
  else
    match df.find? (fun r => r.id == item_id) with
    | none => (.httpError 404 "Item not found", df)
    | some r => (.ok r, df)

/-- The three guarded field assignments of `update_item`: a field is written
exactly when it `is not None` in the body; `id` is never written. -/
def applyUpdate (u : ItemUpdate) (r : Item) : Item :=
  { r with
    nome := u.nome.getD r.nome
    cognome := u.cognome.getD r.cognome
    codice_fiscale := u.codice_fiscale.getD r.codice_fiscale }

/-- Mutate the first row whose id matches (`item_index[0]` / `df.at[idx, _]`),
returning the updated row and the rewritten table; `none` when no row
matches. -/
def updateRows (item_id : Int) (u : ItemUpdate) : Table → Option (Item × Table)
  | [] => none
  | r :: rs =>
    if r.id == item_id then
      let r2 := applyUpdate u r
      some (r2, r2 :: rs)
    else
      match updateRows item_id u rs with
      | none => none
      | some (r2, rs2) => some (r2, r :: rs2)

/-- `update_item` (PUT /items/{item_id}): 404 when the id is absent; then the
duplicate check runs only when the supplied codice_fiscale is truthy
(`if item_update.codice_fiscale:`), comparing against rows with a different
id; otherwise the supplied fields are applied in place and the row returned. -/
def update_item (item_id : Int) (u : ItemUpdate) (df : Table) : Resp × Table :=
  if df.isEmpty then (.httpError 404 "Item not found", df)
  else
    match updateRows item_id u df with
    | none => (.httpError 404 "Item not found", df)
    | some (updated, df2) =>
      if truthy u.codice_fiscale
          && df.any (fun r =>
              r.codice_fiscale == u.codice_fiscale.getD "" && !(r.id == item_id)) then
        (.httpError 400 "Codice fiscale already exists", df)
      else
        (.ok updated, df2)

/-- `delete_item` (DELETE /items/{item_id}): 404 when the id is absent, else
keep exactly the rows with a different id (`df[df['id'] != item_id]`). -/
def delete_item (item_id : Int) (df : Table) : Resp × Table :=
  if df.isEmpty then (.httpError 404 "Item not found", df)
  else if df.any (fun r => r.id == item_id) then
    (.okMessage "Item deleted successfully", df.filter (fun r => !(r.id == item_id)))
  else (.httpError 404 "Item not found", df)

/-- `get_items_count` (GET /items/count): `{"count": len(df)}`; `read_csv`
lazily creates an empty table, so a never-written table counts as 0. -/
def get_items_count (df : Table) : Resp × Table :=
  (.okCount df.length, df)

/-- `root` (GET /). -/
def root (df : Table) : Resp × Table :=
  (.okMessage "CSV Management API is running", df)

/-! ### Routing

Starlette matches routes in registration order; a `{item_id}` path segment
matches any single non-slash segment, and FastAPI then validates it against
the declared `int` type, answering 422 on failure.  Registration order in
main.py for GET: `/items/` (line 73), `/items/{item_id}` (line 82),
`/items/count` (line 144), `/` (line 150). -/

/-- A path-pattern segment: a literal, or a captured path parameter. -/
inductive Seg where
  | lit (s : String)
  | param
deriving Repr, DecidableEq

/-- The GET handlers of main.py. -/
inductive GetHandler where
  | allItems
  | itemById
  | itemsCount
  | rootPage
deriving Repr, DecidableEq

/-- GET routes in registration order. -/
def getRoutes : List (List Seg × GetHandler) :=
  [ ([.lit "items"], .allItems),
    ([.lit "items", .param], .itemById),
    ([.lit "items", .lit "count"], .itemsCount),
    ([], .rootPage) ]

/-- Match a path (as segments) against a pattern, returning captured
parameter segments. -/
def matchSegs : List Seg → List String → Option (List String)
  | [], [] => some []
  | .lit l :: ps, s :: ss => if l == s then matchSegs ps ss else none
  | .param :: ps, s :: ss => (matchSegs ps ss).map (fun caps => s :: caps)
  | _, _ => none

/-- First route whose pattern matches the path, in registration order. -/
def firstMatch : List (List Seg × GetHandler) → List String → Option (GetHandler × List String)
  | [], _ => none
  | (pat, h) :: rest, path =>
    match matchSegs pat path with
    | some caps => some (h, caps)
    | none => firstMatch rest path

/-- Parse a digit run as a natural number; `none` when empty or any
character is not a decimal digit. -/
def parseNatDigits : List Char → Option Nat
  | [] => none
  | cs => cs.foldl (fun acc c =>
      match acc with
      | none => none
      | some n => if c.isDigit then some (n * 10 + (c.toNat - 48)) else none)
    (some 0)

/-- Integer validation of the `item_id` path parameter: an optional sign
followed by decimal digits; anything else fails (pydantic rejects it). -/
def parseIntPath (s : String) : Option Int :=
  match s.data with
  | '-' :: cs => (parseNatDigits cs).map (fun n => -(n : Int))
  | '+' :: cs => (parseNatDigits cs).map (fun n => (n : Int))
  | cs => (parseNatDigits cs).map (fun n => (n : Int))

/-- Dispatch of a GET request: route in registration order, validate the
`item_id` path parameter as `int` (422 on failure), run the handler. -/
def dispatchGet (path : List String) (df : Table) : Resp × Table :=
  match firstMatch getRoutes path with
  | some (.allItems, _) => get_all_items df
  | some (.itemById, [s]) =>
    match parseIntPath s with
    | some n => get_item n df
    | none => (.validationError, df)
  | some (.itemById, _) => (.validationError, df)
  | some (.itemsCount, _) => get_items_count df
  | some (.rootPage, _) => root df
  | none => (.httpError 404 "Not Found", df)

/-! ### Mutating operations and reachable states -/

/-- A mutating operation of the store. -/
inductive Op where
  | create (x : ItemCreate)
  | update (item_id : Int) (u : ItemUpdate)
  | delete (item_id : Int)
deriving Repr, DecidableEq

/-- The durable table after an operation (unchanged when it fails). -/
def applyOp : Op → Table → Table
  | .create x, df => (create_item x df).2
  | .update i u, df => (update_item i u df).2
  | .delete i, df => (delete_item i df).2

/-- Tables reachable from the initial (lazily created, empty) table by
running operations. -/
inductive Reachable : Table → Prop where
  | empty : Reachable []
  | step (op : Op) {df : Table} : Reachable df → Reachable (applyOp op df)

/-- No two rows share a codice_fiscale. -/
def uniqueCF (df : Table) : Prop :=
  (df.map (fun r => r.codice_fiscale)).Nodup

instance (df : Table) : Decidable (uniqueCF df) := by
  unfold uniqueCF; infer_instance

/-- No two rows share an id. -/
def uniqueId (df : Table) : Prop :=
  (df.map (fun r => r.id)).Nodup

instance (df : Table) : Decidable (uniqueId df) := by
  unfold uniqueId; infer_instance

/-! ### Helper lemmas -/

theorem get_all_items_eq (df : Table) : get_all_items df = (.okList df, df) := by
  unfold get_all_items
  cases df <;> simp

theorem le_foldl_max (l : List Int) (a : Int) : a ≤ l.foldl max a := by
  induction l generalizing a with
  | nil => exact le_refl a
  | cons b t ih =>
    simp only [List.foldl_cons]
    exact le_trans (le_max_left a b) (ih (max a b))

theorem mem_le_foldl_max : ∀ (l : List Int) (a x : Int), x ∈ l → x ≤ l.foldl max a
  | [], _, _, hx => by cases hx
  | b :: t, a, x, hx => by
    simp only [List.foldl_cons]
    rcases List.mem_cons.mp hx with rfl | h
    · exact le_trans (le_max_right a x) (le_foldl_max t (max a x))
    · exact mem_le_foldl_max t (max a b) x h

theorem foldl_max_mem (l : List Int) (a : Int) :
    l.foldl max a = a ∨ l.foldl max a ∈ l := by
  induction l generalizing a with
  | nil => left; rfl
  | cons b t ih =>
    simp only [List.foldl_cons]
    rcases ih (max a b) with h | h
    · rcases max_choice a b with h2 | h2
      · left; rw [h, h2]
      · right; rw [h, h2]; exact List.mem_cons_self b t
    · right; exact List.mem_cons_of_mem b h

theorem id_lt_get_next_id (df : Table) (r : Item) (hr : r ∈ df) :
    r.id < get_next_id df := by
  cases df with
  | nil => cases hr
  | cons a t =>
    show r.id < (t.map fun x => x.id).foldl max a.id + 1
    have hle : r.id ≤ (t.map fun x => x.id).foldl max a.id := by
      rcases List.mem_cons.mp hr with rfl | hm
      · exact le_foldl_max _ _
      · exact mem_le_foldl_max _ _ _ (List.mem_map_of_mem _ hm)
    omega

theorem get_next_id_eq_succ_mem (df : Table) (hdf : df ≠ []) :
    ∃ r ∈ df, get_next_id df = r.id + 1 := by
  cases df with
  | nil => exact absurd rfl hdf
  | cons a t =>
    show ∃ r ∈ a :: t, (t.map fun x => x.id).foldl max a.id + 1 = r.id + 1
    rcases foldl_max_mem (t.map fun x => x.id) a.id with he | he
    · exact ⟨a, List.mem_cons_self a t, by rw [he]⟩
    · rcases List.mem_map.mp he with ⟨r, hr, hre⟩
      exact ⟨r, List.mem_cons_of_mem a hr, by rw [← hre]⟩

theorem find?_append_singleton (df : Table) (r : Item)
    (h : ∀ p ∈ df, p.id ≠ r.id) :
    (df ++ [r]).find? (fun q => q.id == r.id) = some r := by
  induction df with
  | nil => simp [List.find?]
  | cons a t ih =>
    have ha : ¬ (a.id == r.id) = true := by
      simp only [beq_iff_eq]
      exact h a (List.mem_cons_self a t)
    rw [List.cons_append,
      @List.find?_cons_of_neg _ (fun q => q.id == r.id) a (t ++ [r]) ha]
    exact ih fun p hp => h p (List.mem_cons_of_mem a hp)

theorem updateRows_eq_none_of_not_mem (item_id : Int) (u : ItemUpdate) (df : Table)
    (h : ∀ r ∈ df, r.id ≠ item_id) :
    updateRows item_id u df = none := by
  induction df with
  | nil => rfl
  | cons a t ih =>
    have hc : ¬ (a.id == item_id) = true := by
      simp only [beq_iff_eq]
      exact h a (List.mem_cons_self a t)
    simp only [updateRows, if_neg hc,
      ih fun r hr => h r (List.mem_cons_of_mem a hr)]

theorem updateRows_isSome (item_id : Int) (u : ItemUpdate) (df : Table) (r0 : Item)
    (hr0 : r0 ∈ df) (hid : r0.id = item_id) :
    (updateRows item_id u df).isSome := by
  induction df with
  | nil => cases hr0
  | cons a t ih =>
    by_cases hc : (a.id == item_id) = true
    · simp only [updateRows, if_pos hc, Option.isSome_some]
    · rcases List.mem_cons.mp hr0 with rfl | hm
      · rw [beq_iff_eq] at hc; exact absurd hid hc
      · have hs := ih hm
        simp only [updateRows, if_neg hc]
        cases ht : updateRows item_id u t with
        | none => rw [ht] at hs; simp at hs
        | some p => cases p; simp

theorem updateRows_eq_some (item_id : Int) (u : ItemUpdate) (df : Table)
    (r2 : Item) (df2 : Table) (h : updateRows item_id u df = some (r2, df2)) :
    ∃ pre r post, df = pre ++ r :: post ∧ (∀ p ∈ pre, p.id ≠ item_id) ∧
      r.id = item_id ∧ r2 = applyUpdate u r ∧ df2 = pre ++ r2 :: post := by
  induction df generalizing r2 df2 with
  | nil => simp [updateRows] at h
  | cons a t ih =>
    by_cases hc : (a.id == item_id) = true
    · simp only [updateRows, if_pos hc, Option.some.injEq, Prod.mk.injEq] at h
      obtain ⟨h1, h2⟩ := h
      exact ⟨[], a, t, rfl, by simp, beq_iff_eq.mp hc, h1.symm,
        by rw [← h2, ← h1]; rfl⟩
    · simp only [updateRows, if_neg hc] at h
      cases ht : updateRows item_id u t with
      | none => rw [ht] at h; simp at h
      | some p =>
        obtain ⟨r2t, rs2⟩ := p
        rw [ht] at h
        simp only [Option.some.injEq, Prod.mk.injEq] at h
        obtain ⟨h1, h2⟩ := h
        subst h1
        obtain ⟨pre, r, post, hdf, hpre, hid, hr2, hdf2⟩ := ih _ _ ht
        refine ⟨a :: pre, r, post, by rw [hdf]; rfl, ?_, hid, hr2, ?_⟩
        · intro p hp
          rcases List.mem_cons.mp hp with rfl | hm
          · rw [beq_iff_eq] at hc; exact hc
          · exact hpre p hm
        · rw [← h2, hdf2]; rfl

theorem updateRows_of_find? (item_id : Int) (u : ItemUpdate) (df : Table) (r : Item)
    (h : df.find? (fun q => q.id == item_id) = some r) :
    ∃ df2, updateRows item_id u df = some (applyUpdate u r, df2) := by
  induction df with
  | nil => simp [List.find?] at h
  | cons a t ih =>
    by_cases hc : (a.id == item_id) = true
    · rw [@List.find?_cons_of_pos _ (fun q => q.id == item_id) a t hc] at h
      injection h with h
      subst h
      exact ⟨applyUpdate u a :: t, by simp only [updateRows, if_pos hc]⟩
    · rw [@List.find?_cons_of_neg _ (fun q => q.id == item_id) a t hc] at h
      obtain ⟨df2, hd⟩ := ih h
      exact ⟨a :: df2, by simp only [updateRows, if_neg hc, hd]⟩

theorem applyUpdate_empty (r : Item) : applyUpdate ⟨none, none, none⟩ r = r := rfl

theorem get_item_404 (df : Table) (item_id : Int)
    (h : ∀ r ∈ df, r.id ≠ item_id) :
    get_item item_id df = (.httpError 404 "Item not found", df) := by
  have hfind : df.find? (fun q => q.id == item_id) = none :=
    List.find?_eq_none.mpr fun q hq => by
      simp only [beq_iff_eq]
      exact h q hq
  unfold get_item
  split
  · rfl
  · rw [hfind]

theorem update_item_404 (df : Table) (item_id : Int) (u : ItemUpdate)
    (h : ∀ r ∈ df, r.id ≠ item_id) :
    update_item item_id u df = (.httpError 404 "Item not found", df) := by
  have hrows : updateRows item_id u df = none :=
    updateRows_eq_none_of_not_mem item_id u df h
  unfold update_item
  split
  · rfl
  · rw [hrows]

theorem delete_item_404 (df : Table) (item_id : Int)
    (h : ∀ r ∈ df, r.id ≠ item_id) :
    delete_item item_id df = (.httpError 404 "Item not found", df) := by
  have hany : df.any (fun q => q.id == item_id) = false := by
    simp only [List.any_eq_false, beq_iff_eq]
    exact h
  unfold delete_item
  split
  · rfl
  · rw [hany]
    rfl

theorem update_item_eq_of_updateRows (item_id : Int) (u : ItemUpdate) (df : Table)
    (r2 : Item) (df2 : Table) (hne : df.isEmpty = false)
    (hrow : updateRows item_id u df = some (r2, df2)) :
    update_item item_id u df =
      if truthy u.codice_fiscale
          && df.any (fun r =>
              r.codice_fiscale == u.codice_fiscale.getD "" && !(r.id == item_id)) then
        (.httpError 400 "Codice fiscale already exists", df)
      else (.ok r2, df2) := by
  unfold update_item
  rw [hne, hrow]
  rfl

theorem applyUpdate_id (u : ItemUpdate) (r : Item) : (applyUpdate u r).id = r.id := rfl

theorem update_guard_iff (df : Table) (item_id : Int) (u : ItemUpdate) :
    (truthy u.codice_fiscale && df.any fun r =>
        r.codice_fiscale == u.codice_fiscale.getD "" && !(r.id == item_id)) = true ↔
      ∃ cf, u.codice_fiscale = some cf ∧ cf ≠ "" ∧
        ∃ r ∈ df, r.codice_fiscale = cf ∧ r.id ≠ item_id := by
  cases hcf : u.codice_fiscale with
  | none =>
    simp only [truthy, Bool.false_and, Bool.false_eq_true, false_iff]
    rintro ⟨cf, hcf2, -⟩
    cases hcf2
  | some cf =>
    simp only [truthy, Option.getD_some, Bool.and_eq_true, List.any_eq_true,
      Bool.not_eq_true', beq_eq_false_iff_ne, beq_iff_eq, ne_eq,
      Option.some.injEq]
    constructor
    · rintro ⟨h1, r, hr, h2, h3⟩
      exact ⟨cf, rfl, h1, r, hr, h2, h3⟩
    · rintro ⟨cf2, rfl, h1, r, hr, h2, h3⟩
      exact ⟨h1, r, hr, h2, h3⟩

theorem updateRows_map_id (item_id : Int) (u : ItemUpdate) (df : Table)
    (r2 : Item) (df2 : Table) (h : updateRows item_id u df = some (r2, df2)) :
    df2.map (fun r => r.id) = df.map (fun r => r.id) := by
  obtain ⟨pre, r, post, hdf, -, -, hr2, hdf2⟩ := updateRows_eq_some _ _ _ _ _ h
  subst hdf
  subst hdf2
  simp [hr2, applyUpdate_id]

theorem create_preserves_uniqueId (x : ItemCreate) (df : Table)
    (h : uniqueId df) : uniqueId (create_item x df).2 := by
  unfold create_item
  split
  · exact h
  · unfold uniqueId
    simp only [List.map_append, List.map_cons, List.map_nil]
    rw [List.nodup_append]
    refine ⟨h, List.nodup_singleton _, ?_⟩
    intro a ha hb
    rw [List.mem_singleton] at hb
    obtain ⟨r, hr, hre⟩ := List.mem_map.mp ha
    have hlt := id_lt_get_next_id df r hr
    rw [hre] at hlt
    rw [hb] at hlt
    exact absurd hlt (by simp)

theorem update_preserves_uniqueId (item_id : Int) (u : ItemUpdate) (df : Table)
    (h : uniqueId df) : uniqueId (update_item item_id u df).2 := by
  by_cases he : df.isEmpty = true
  · unfold update_item
    rw [if_pos he]
    exact h
  · have hne : df.isEmpty = false := by
      cases hb : df.isEmpty
      · rfl
      · exact absurd hb he
    cases hrow : updateRows item_id u df with
    | none =>
      unfold update_item
      rw [hne, hrow]
      exact h
    | some p =>
      obtain ⟨r2, df2⟩ := p
      rw [update_item_eq_of_updateRows item_id u df r2 df2 hne hrow]
      split
      · exact h
      · show uniqueId df2
        unfold uniqueId
        rw [updateRows_map_id _ _ _ _ _ hrow]
        exact h

theorem delete_preserves_uniqueId (item_id : Int) (df : Table)
    (h : uniqueId df) : uniqueId (delete_item item_id df).2 := by
  unfold delete_item
  split
  · exact h
  · split
    · exact List.Nodup.sublist
        (List.Sublist.map (fun r => r.id) (List.filter_sublist df)) h
    · exact h

theorem applyOp_preserves_uniqueId (op : Op) (df : Table) (h : uniqueId df) :
    uniqueId (applyOp op df) := by
  cases op with
  | create x => exact create_preserves_uniqueId x df h
  | update i u => exact update_preserves_uniqueId i u df h
  | delete i => exact delete_preserves_uniqueId i df h

/-- Invariant: every reachable table has pairwise-distinct ids. -/
theorem reachable_uniqueId (df : Table) (h : Reachable df) : uniqueId df := by
  induction h with
  | empty => exact List.nodup_nil
  | step op hr ih => exact applyOp_preserves_uniqueId op _ ih

theorem create_preserves_uniqueCF (x : ItemCreate) (df : Table)
    (h : uniqueCF df) : uniqueCF (create_item x df).2 := by
  by_cases he : df.isEmpty = true
  · rw [List.isEmpty_iff.mp he]
    show uniqueCF [(⟨get_next_id [], x.nome, x.cognome, x.codice_fiscale⟩ : Item)]
    exact List.nodup_singleton _
  · have hne : df.isEmpty = false := by
      cases hb : df.isEmpty
      · rfl
      · exact absurd hb he
    unfold create_item
    cases hany : df.any fun q => q.codice_fiscale == x.codice_fiscale with
    | true =>
      rw [hne]
      exact h
    | false =>
      rw [hne]
      show uniqueCF (df ++ [(⟨get_next_id df, x.nome, x.cognome, x.codice_fiscale⟩ : Item)])
      unfold uniqueCF
      simp only [List.map_append, List.map_cons, List.map_nil]
      rw [List.nodup_append]
      refine ⟨h, List.nodup_singleton _, ?_⟩
      intro a ha hb
      rw [List.mem_singleton] at hb
      obtain ⟨r, hr, hre⟩ := List.mem_map.mp ha
      rw [List.any_eq_false] at hany
      apply hany r hr
      rw [beq_iff_eq, hre, hb]

theorem delete_preserves_uniqueCF (item_id : Int) (df : Table)
    (h : uniqueCF df) : uniqueCF (delete_item item_id df).2 := by
  unfold delete_item
  split
  · exact h
  · split
    · exact List.Nodup.sublist
        (List.Sublist.map (fun r => r.codice_fiscale) (List.filter_sublist df)) h
    · exact h

theorem update_preserves_uniqueCF (item_id : Int) (u : ItemUpdate) (df : Table)
    (hcf : uniqueCF df) (hid : uniqueId df) (hnonempty : u.codice_fiscale ≠ some "") :
    uniqueCF (update_item item_id u df).2 := by
  by_cases he : df.isEmpty = true
  · unfold update_item
    rw [if_pos he]
    exact hcf
  · have hne : df.isEmpty = false := by
      cases hb : df.isEmpty
      · rfl
      · exact absurd hb he
    cases hrow : updateRows item_id u df with
    | none =>
      unfold update_item
      rw [hne, hrow]
      exact hcf
    | some p =>
      obtain ⟨r2, df2⟩ := p
      rw [update_item_eq_of_updateRows item_id u df r2 df2 hne hrow]
      by_cases hg : (truthy u.codice_fiscale && df.any fun r =>
          r.codice_fiscale == u.codice_fiscale.getD "" && !(r.id == item_id)) = true
      · rw [if_pos hg]
        exact hcf
      · rw [if_neg hg]
        show uniqueCF df2
        obtain ⟨pre, r, post, hdf, hpre, hrid, hr2, hdf2⟩ :=
          updateRows_eq_some _ _ _ _ _ hrow
        cases hu : u.codice_fiscale with
        | none =>
          have hmap : df2.map (fun q => q.codice_fiscale)
              = df.map (fun q => q.codice_fiscale) := by
            subst hdf
            subst hdf2
            simp only [List.map_append, List.map_cons]
            have : r2.codice_fiscale = r.codice_fiscale := by
              rw [hr2]
              show u.codice_fiscale.getD r.codice_fiscale = r.codice_fiscale
              rw [hu]
              rfl
            rw [this]
          unfold uniqueCF
          rw [hmap]
          exact hcf
        | some cf =>
          have hcfne : cf ≠ "" := fun hstr => hnonempty (by rw [hu, hstr])
          have htr : truthy u.codice_fiscale = true := by
            rw [hu]
            show (!(cf == "")) = true
            simp [hcfne]
          have hany : (df.any fun q =>
              q.codice_fiscale == cf && !(q.id == item_id)) = false := by
            cases hb : df.any fun q => q.codice_fiscale == cf && !(q.id == item_id)
            · rfl
            · exfalso
              apply hg
              rw [htr, hu]
              simp only [Option.getD_some, Bool.true_and]
              exact hb
          have hanyP : ∀ q ∈ df, q.codice_fiscale = cf → q.id = item_id := by
            intro q hq hqcf
            rw [List.any_eq_false] at hany
            have hb := hany q hq
            by_cases hqi : q.id = item_id
            · exact hqi
            · exfalso
              apply hb
              rw [Bool.and_eq_true]
              exact ⟨beq_iff_eq.mpr hqcf, by simp [hqi]⟩
          have hr2cf : r2.codice_fiscale = cf := by
            rw [hr2]
            show u.codice_fiscale.getD r.codice_fiscale = cf
            rw [hu]
            rfl
          have hidpost : ∀ q ∈ post, q.id ≠ item_id := by
            intro q hq hqid
            unfold uniqueId at hid
            rw [hdf, List.map_append, List.map_cons, List.nodup_append] at hid
            obtain ⟨-, hco, -⟩ := hid
            rw [List.nodup_cons] at hco
            exact hco.1 (by rw [hrid, ← hqid]; exact List.mem_map_of_mem _ hq)
          have hnotpre : cf ∉ pre.map (fun q => q.codice_fiscale) := by
            intro hmem
            obtain ⟨q, hq, hqe⟩ := List.mem_map.mp hmem
            exact hpre q hq (hanyP q (by rw [hdf]; simp [hq]) hqe)
          have hnotpost : cf ∉ post.map (fun q => q.codice_fiscale) := by
            intro hmem
            obtain ⟨q, hq, hqe⟩ := List.mem_map.mp hmem
            exact hidpost q hq (hanyP q (by rw [hdf]; simp [hq]) hqe)
          unfold uniqueCF at hcf ⊢
          rw [hdf, List.map_append, List.map_cons, List.nodup_middle,
            List.nodup_cons] at hcf
          rw [hdf2, List.map_append, List.map_cons, List.nodup_middle,
            List.nodup_cons, hr2cf]
          refine ⟨?_, hcf.2⟩
          intro hmem
          rcases List.mem_append.mp hmem with hmem | hmem
          · exact hnotpre hmem
          · exact hnotpost hmem

/-! ### Claim theorems -/

/-- C2: the spec says GET /items/count always answers 200 with the row count.
In main.py the route `/items/count` is registered after `/items/{item_id}`,
so the request is dispatched to `get_item` with the path parameter `"count"`,
whose `int` validation fails: the response is a 422 validation error for
every table state, never 200.  The handler itself, were it reachable, would
return the row count. -/
theorem items_count_route_shadowed (df : Table) :
    dispatchGet ["items", "count"] df = (.validationError, df) ∧
    get_items_count df = (.okCount df.length, df) := by
  exact ⟨rfl, rfl⟩

/-- C3: a non-colliding create assigns id `max(existing ids) + 1` (1 on an
empty table, one more than some existing id otherwise, strictly above every
existing id — so deleted ids below the max are not reused), appends the new
row last, and returns exactly the supplied fields with that id. -/
theorem create_assigns_max_plus_one (df : Table) (x : ItemCreate)
    (h : ∀ r ∈ df, r.codice_fiscale ≠ x.codice_fiscale) :
    ∃ new : Item,
      create_item x df = (.ok new, df ++ [new]) ∧
      new.nome = x.nome ∧ new.cognome = x.cognome ∧
      new.codice_fiscale = x.codice_fiscale ∧ new.id = get_next_id df ∧
      (df = [] → new.id = 1) ∧
      (∀ r ∈ df, r.id < new.id) ∧
      (df ≠ [] → ∃ r ∈ df, new.id = r.id + 1) := by
  have hany : df.any (fun q => q.codice_fiscale == x.codice_fiscale) = false := by
    simp only [List.any_eq_false, beq_iff_eq]
    exact h
  refine ⟨⟨get_next_id df, x.nome, x.cognome, x.codice_fiscale⟩, ?_, rfl, rfl, rfl, rfl,
    ?_, ?_, ?_⟩
  · unfold create_item
    rw [hany, Bool.and_false]
    rfl
  · intro hdf; subst hdf; rfl
  · exact fun r hr => id_lt_get_next_id df r hr
  · exact get_next_id_eq_succ_mem df

/-- C3 witness: after ids {1, 3} (id 2 deleted), create assigns id 4. -/
theorem create_assigns_max_plus_one_witness :
    ∃ new : Item,
      create_item ⟨"e", "f", "r"⟩ [(⟨1, "a", "b", "p"⟩ : Item), ⟨3, "c", "d", "q"⟩]
          = (.ok new, [(⟨1, "a", "b", "p"⟩ : Item), ⟨3, "c", "d", "q"⟩] ++ [new]) ∧
      new.nome = "e" ∧ new.cognome = "f" ∧ new.codice_fiscale = "r" ∧
      new.id = get_next_id [(⟨1, "a", "b", "p"⟩ : Item), ⟨3, "c", "d", "q"⟩] ∧
      ([(⟨1, "a", "b", "p"⟩ : Item), ⟨3, "c", "d", "q"⟩] = ([] : Table) → new.id = 1) ∧
      (∀ r ∈ [(⟨1, "a", "b", "p"⟩ : Item), ⟨3, "c", "d", "q"⟩], r.id < new.id) ∧
      ([(⟨1, "a", "b", "p"⟩ : Item), ⟨3, "c", "d", "q"⟩] ≠ ([] : Table) →
        ∃ r ∈ [(⟨1, "a", "b", "p"⟩ : Item), ⟨3, "c", "d", "q"⟩], new.id = r.id + 1) :=
  create_assigns_max_plus_one _ _ (by decide)

/-- C4: a record returned by a successful create is found unchanged by a
subsequent getById on its id, appears in listAll's output (which is the
persisted table itself), and is the last row of the persisted table. -/
theorem create_roundtrip (df : Table) (x : ItemCreate) (r : Item) (df2 : Table)
    (h : create_item x df = (.ok r, df2)) :
    get_item r.id df2 = (.ok r, df2) ∧
    get_all_items df2 = (.okList df2, df2) ∧
    r ∈ df2 ∧ df2.getLast? = some r := by
  unfold create_item at h
  by_cases hc : (!df.isEmpty && df.any fun q => q.codice_fiscale == x.codice_fiscale) = true
  · rw [if_pos hc] at h
    simp at h
  · rw [if_neg hc] at h
    simp only [Prod.mk.injEq, Resp.ok.injEq] at h
    obtain ⟨h1, h2⟩ := h
    subst h1
    subst h2
    have hid : ∀ p ∈ df,
        p.id ≠ (⟨get_next_id df, x.nome, x.cognome, x.codice_fiscale⟩ : Item).id := by
      intro p hp he
      have hlt := id_lt_get_next_id df p hp
      rw [he] at hlt
      exact absurd hlt (by simp)
    refine ⟨?_, get_all_items_eq _, by simp, List.getLast?_concat _⟩
    unfold get_item
    have hne : (df ++ [(⟨get_next_id df, x.nome, x.cognome, x.codice_fiscale⟩ : Item)]).isEmpty
        = false := by simp
    rw [hne, find?_append_singleton df _ hid]
    rfl

/-- C4 witness: a create on the empty table round-trips through getById,
listAll and the last persisted row. -/
theorem create_roundtrip_witness :
    get_item 1 [(⟨1, "a", "b", "x"⟩ : Item)]
        = (.ok ⟨1, "a", "b", "x"⟩, [⟨1, "a", "b", "x"⟩]) ∧
    get_all_items [(⟨1, "a", "b", "x"⟩ : Item)]
        = (.okList [⟨1, "a", "b", "x"⟩], [⟨1, "a", "b", "x"⟩]) ∧
    (⟨1, "a", "b", "x"⟩ : Item) ∈ [(⟨1, "a", "b", "x"⟩ : Item)] ∧
    [(⟨1, "a", "b", "x"⟩ : Item)].getLast? = some ⟨1, "a", "b", "x"⟩ :=
  create_roundtrip [] ⟨"a", "b", "x"⟩ ⟨1, "a", "b", "x"⟩ [⟨1, "a", "b", "x"⟩] (by decide)

/-- C5: creating with a fiscal code already held by some record fails with
the 400 DuplicateKey error and returns with the durable table exactly as it
was read at entry — the error is raised before the write. -/
theorem create_duplicate_unchanged (df : Table) (x : ItemCreate) (r0 : Item)
    (hr0 : r0 ∈ df) (hcf : r0.codice_fiscale = x.codice_fiscale) :
    create_item x df = (.httpError 400 "Codice fiscale already exists", df) := by
  have hne : df.isEmpty = false := by
    cases df
    · cases hr0
    · rfl
  have hany : df.any (fun q => q.codice_fiscale == x.codice_fiscale) = true :=
    List.any_eq_true.mpr ⟨r0, hr0, by rw [beq_iff_eq]; exact hcf⟩
  unfold create_item
  rw [hne, hany]
  rfl

/-- C5 witness: a duplicate create on a one-row table fails 400 and leaves
the table as it was. -/
theorem create_duplicate_unchanged_witness :
    create_item ⟨"c", "d", "x"⟩ [(⟨1, "a", "b", "x"⟩ : Item)]
        = (.httpError 400 "Codice fiscale already exists", [⟨1, "a", "b", "x"⟩]) :=
  create_duplicate_unchanged _ _ ⟨1, "a", "b", "x"⟩ (by decide) (by decide)

/-- C7: when no row carries the requested id — in particular on the empty
table — getById, update and deleteById all answer 404 NotFound and leave the
durable table unchanged. -/
theorem missing_id_not_found (df : Table) (item_id : Int)
    (h : ∀ r ∈ df, r.id ≠ item_id) :
    get_item item_id df = (.httpError 404 "Item not found", df) ∧
    (∀ u : ItemUpdate, update_item item_id u df = (.httpError 404 "Item not found", df)) ∧
    delete_item item_id df = (.httpError 404 "Item not found", df) :=
  ⟨get_item_404 df item_id h, fun u => update_item_404 df item_id u h,
    delete_item_404 df item_id h⟩

/-- C7 witness: on the empty table, all three id-referencing operations
answer 404 and the table stays empty. -/
theorem missing_id_not_found_witness :
    get_item 7 ([] : Table) = (.httpError 404 "Item not found", []) ∧
    (∀ u : ItemUpdate, update_item 7 u ([] : Table) = (.httpError 404 "Item not found", [])) ∧
    delete_item 7 ([] : Table) = (.httpError 404 "Item not found", []) :=
  missing_id_not_found [] 7 (by decide)

/-- C10: an update supplying the empty string as fiscal code is never subject
to the duplicate check (the guard tests Python truthiness, and `""` is
falsy): whenever the id exists the call succeeds and the record ends up with
the empty fiscal code, whatever the other rows hold — including another row
already holding `""`. -/
theorem update_empty_cf_bypasses_check (df : Table) (item_id : Int) (u : ItemUpdate)
    (r0 : Item) (hr0 : r0 ∈ df) (hid : r0.id = item_id)
    (hcf : u.codice_fiscale = some "") :
    ∃ r2 df2, update_item item_id u df = (.ok r2, df2) ∧
      r2.codice_fiscale = "" ∧ r2.id = item_id ∧ r2 ∈ df2 := by
  have hne : df.isEmpty = false := by
    cases df
    · cases hr0
    · rfl
  have hsome := updateRows_isSome item_id u df r0 hr0 hid
  obtain ⟨⟨r2, df2⟩, hrow⟩ := Option.isSome_iff_exists.mp hsome
  obtain ⟨pre, r, post, hdf, hpre, hid2, hr2, hdf2⟩ := updateRows_eq_some _ _ _ _ _ hrow
  have htr : truthy u.codice_fiscale = false := by rw [hcf]; rfl
  refine ⟨r2, df2, ?_, ?_, ?_, ?_⟩
  · rw [update_item_eq_of_updateRows item_id u df r2 df2 hne hrow, htr, Bool.false_and]
    rfl
  · rw [hr2]
    show u.codice_fiscale.getD r.codice_fiscale = ""
    rw [hcf]
    rfl
  · rw [hr2, ← hid2]
    rfl
  · rw [hdf2]
    simp [hr2]

/-- C10 witness: with record 2 already holding the empty fiscal code, an
update of record 1 to the empty fiscal code still succeeds. -/
theorem update_empty_cf_bypasses_check_witness :
    (∃ r2 df2,
      update_item 1 ⟨none, none, some ""⟩ [(⟨1, "a", "b", "x"⟩ : Item), ⟨2, "c", "d", ""⟩]
          = (.ok r2, df2) ∧
      r2.codice_fiscale = "" ∧ r2.id = 1 ∧ r2 ∈ df2) ∧
    (⟨2, "c", "d", ""⟩ : Item) ∈ [(⟨1, "a", "b", "x"⟩ : Item), ⟨2, "c", "d", ""⟩] ∧
    (⟨2, "c", "d", ""⟩ : Item).codice_fiscale = "" ∧ (⟨2, "c", "d", ""⟩ : Item).id ≠ 1 :=
  ⟨update_empty_cf_bypasses_check _ 1 _ ⟨1, "a", "b", "x"⟩ (by decide) (by decide) rfl,
    by decide, rfl, by decide⟩

/-- C6 counterexample: the claim "update fails DuplicateKey if and only if
the supplied fiscalCode belongs to some other existing record" is false on
the empty string: record 2 holds the (empty) fiscal code being supplied for
record 1, yet the update succeeds because the truthiness guard skips the
check. -/
theorem update_duplicate_iff_cex :
    (⟨2, "c", "d", ""⟩ : Item) ∈ [(⟨1, "a", "b", "x"⟩ : Item), ⟨2, "c", "d", ""⟩] ∧
    (⟨2, "c", "d", ""⟩ : Item).id ≠ (1 : Int) ∧
    (⟨2, "c", "d", ""⟩ : Item).codice_fiscale = "" ∧
    (update_item 1 ⟨none, none, some ""⟩
        [(⟨1, "a", "b", "x"⟩ : Item), ⟨2, "c", "d", ""⟩]).1
      ≠ .httpError 400 "Codice fiscale already exists" ∧
    (update_item 1 ⟨none, none, some ""⟩
        [(⟨1, "a", "b", "x"⟩ : Item), ⟨2, "c", "d", ""⟩]).1
      = .ok ⟨1, "a", "b", ""⟩ := by
  decide

/-- C6 amended: for a table in which the id exists, update fails with
DuplicateKey if and only if the supplied fiscalCode is NON-EMPTY and belongs
to some other existing record (different id); in particular self-match is
allowed, and an empty supplied fiscal code is never rejected. -/
theorem update_duplicate_iff_nonempty (df : Table) (item_id : Int) (u : ItemUpdate)
    (r0 : Item) (hr0 : r0 ∈ df) (hid : r0.id = item_id) :
    (update_item item_id u df).1 = .httpError 400 "Codice fiscale already exists" ↔
      ∃ cf, u.codice_fiscale = some cf ∧ cf ≠ "" ∧
        ∃ r ∈ df, r.codice_fiscale = cf ∧ r.id ≠ item_id := by
  have hne : df.isEmpty = false := by
    cases df
    · cases hr0
    · rfl
  have hsome := updateRows_isSome item_id u df r0 hr0 hid
  obtain ⟨⟨r2, df2⟩, hrow⟩ := Option.isSome_iff_exists.mp hsome
  rw [update_item_eq_of_updateRows item_id u df r2 df2 hne hrow,
    ← update_guard_iff df item_id u]
  by_cases hg : (truthy u.codice_fiscale && df.any fun r =>
      r.codice_fiscale == u.codice_fiscale.getD "" && !(r.id == item_id)) = true
  · rw [if_pos hg]
    simp [hg]
  · rw [if_neg hg]
    simp [hg]

/-- C6 witness: updating record 1 to the fiscal code held by record 2 is
exactly the situation in which the 400 DuplicateKey error fires. -/
theorem update_duplicate_iff_nonempty_witness :
    (update_item 1 ⟨none, none, some "q"⟩
        [(⟨1, "a", "b", "p"⟩ : Item), ⟨2, "c", "d", "q"⟩]).1
      = .httpError 400 "Codice fiscale already exists" ↔
      ∃ cf, (⟨none, none, some "q"⟩ : ItemUpdate).codice_fiscale = some cf ∧ cf ≠ "" ∧
        ∃ r ∈ [(⟨1, "a", "b", "p"⟩ : Item), ⟨2, "c", "d", "q"⟩],
          r.codice_fiscale = cf ∧ r.id ≠ (1 : Int) :=
  update_duplicate_iff_nonempty _ 1 _ ⟨1, "a", "b", "p"⟩ (by decide) (by decide)

/-- C8: a successful update mutates exactly the first row carrying the id —
supplied fields are overwritten, absent fields and the id keep their prior
values, all other rows and the row order and count are untouched; and an
update with no fields succeeds and returns the record (and the table)
unchanged. -/
theorem update_frame :
    (∀ (df : Table) (item_id : Int) (u : ItemUpdate) (r2 : Item) (df2 : Table),
      update_item item_id u df = (.ok r2, df2) →
      ∃ pre r post, df = pre ++ r :: post ∧ r.id = item_id ∧
        r2 = applyUpdate u r ∧ r2.id = r.id ∧
        (u.nome = none → r2.nome = r.nome) ∧
        (u.cognome = none → r2.cognome = r.cognome) ∧
        (u.codice_fiscale = none → r2.codice_fiscale = r.codice_fiscale) ∧
        (∀ s, u.nome = some s → r2.nome = s) ∧
        (∀ s, u.cognome = some s → r2.cognome = s) ∧
        (∀ s, u.codice_fiscale = some s → r2.codice_fiscale = s) ∧
        df2 = pre ++ r2 :: post ∧ df2.length = df.length) ∧
    (∀ (df : Table) (item_id : Int) (r : Item),
      df.find? (fun q => q.id == item_id) = some r →
      update_item item_id ⟨none, none, none⟩ df = (.ok r, df)) := by
  constructor
  · intro df item_id u r2 df2 h
    by_cases he : df.isEmpty = true
    · rw [List.isEmpty_iff.mp he] at h
      simp [update_item] at h
    · have hne : df.isEmpty = false := by
        cases hb : df.isEmpty
        · rfl
        · exact absurd hb he
      cases hrow : updateRows item_id u df with
      | none =>
        unfold update_item at h
        rw [hne, hrow] at h
        simp at h
      | some p =>
        obtain ⟨r2x, df2x⟩ := p
        rw [update_item_eq_of_updateRows item_id u df r2x df2x hne hrow] at h
        by_cases hg : (truthy u.codice_fiscale && df.any fun r =>
            r.codice_fiscale == u.codice_fiscale.getD "" && !(r.id == item_id)) = true
        · rw [if_pos hg] at h
          simp at h
        · rw [if_neg hg] at h
          simp only [Prod.mk.injEq, Resp.ok.injEq] at h
          obtain ⟨h1, h2⟩ := h
          subst h1
          subst h2
          obtain ⟨pre, r, post, hdf, hpre, hid, hr2, hdf2⟩ :=
            updateRows_eq_some _ _ _ _ _ hrow
          refine ⟨pre, r, post, hdf, hid, hr2, by rw [hr2]; rfl,
            ?_, ?_, ?_, ?_, ?_, ?_, hdf2, by rw [hdf, hdf2]; simp⟩
          · intro hn; rw [hr2]; show u.nome.getD r.nome = r.nome; rw [hn]; rfl
          · intro hn; rw [hr2]; show u.cognome.getD r.cognome = r.cognome; rw [hn]; rfl
          · intro hn; rw [hr2]
            show u.codice_fiscale.getD r.codice_fiscale = r.codice_fiscale
            rw [hn]; rfl
          · intro s hs; rw [hr2]; show u.nome.getD r.nome = s; rw [hs]; rfl
          · intro s hs; rw [hr2]; show u.cognome.getD r.cognome = s; rw [hs]; rfl
          · intro s hs; rw [hr2]
            show u.codice_fiscale.getD r.codice_fiscale = s
            rw [hs]; rfl
  · intro df item_id r hfind
    have hne : df.isEmpty = false := by
      cases df
      · simp [List.find?] at hfind
      · rfl
    obtain ⟨df2, hrow⟩ := updateRows_of_find? item_id ⟨none, none, none⟩ df r hfind
    rw [applyUpdate_empty] at hrow
    obtain ⟨pre, r', post, hdf, hpre, hid', hr2, hdf2⟩ :=
      updateRows_eq_some _ _ _ _ _ hrow
    have hdd : df2 = df := by
      rw [hdf2, hdf, hr2, applyUpdate_empty]
    rw [update_item_eq_of_updateRows _ _ _ _ _ hne hrow, hdd]
    rfl

/-- C8 witness: updating only the nome of record 2 leaves every other field
and row as it was; the empty update returns record 2 and the table
unchanged. -/
theorem update_frame_witness :
    (∃ pre r post,
      ([(⟨1, "a", "b", "p"⟩ : Item), ⟨2, "c", "d", "q"⟩] : Table) = pre ++ r :: post ∧
      r.id = (2 : Int) ∧
      (⟨2, "z", "d", "q"⟩ : Item) = applyUpdate ⟨some "z", none, none⟩ r ∧
      (⟨2, "z", "d", "q"⟩ : Item).id = r.id ∧
      ((⟨some "z", none, none⟩ : ItemUpdate).nome = none →
        (⟨2, "z", "d", "q"⟩ : Item).nome = r.nome) ∧
      ((⟨some "z", none, none⟩ : ItemUpdate).cognome = none →
        (⟨2, "z", "d", "q"⟩ : Item).cognome = r.cognome) ∧
      ((⟨some "z", none, none⟩ : ItemUpdate).codice_fiscale = none →
        (⟨2, "z", "d", "q"⟩ : Item).codice_fiscale = r.codice_fiscale) ∧
      (∀ s, (⟨some "z", none, none⟩ : ItemUpdate).nome = some s →
        (⟨2, "z", "d", "q"⟩ : Item).nome = s) ∧
      (∀ s, (⟨some "z", none, none⟩ : ItemUpdate).cognome = some s →
        (⟨2, "z", "d", "q"⟩ : Item).cognome = s) ∧
      (∀ s, (⟨some "z", none, none⟩ : ItemUpdate).codice_fiscale = some s →
        (⟨2, "z", "d", "q"⟩ : Item).codice_fiscale = s) ∧
      ([(⟨1, "a", "b", "p"⟩ : Item), ⟨2, "z", "d", "q"⟩] : Table) = pre ++ ⟨2, "z", "d", "q"⟩ :: post ∧
      ([(⟨1, "a", "b", "p"⟩ : Item), ⟨2, "z", "d", "q"⟩] : Table).length
        = ([(⟨1, "a", "b", "p"⟩ : Item), ⟨2, "c", "d", "q"⟩] : Table).length) ∧
    update_item 2 ⟨none, none, none⟩ [(⟨1, "a", "b", "p"⟩ : Item), ⟨2, "c", "d", "q"⟩]
      = (.ok ⟨2, "c", "d", "q"⟩, [(⟨1, "a", "b", "p"⟩ : Item), ⟨2, "c", "d", "q"⟩]) :=
  ⟨update_frame.1 [⟨1, "a", "b", "p"⟩, ⟨2, "c", "d", "q"⟩] 2 ⟨some "z", none, none⟩
      ⟨2, "z", "d", "q"⟩ [⟨1, "a", "b", "p"⟩, ⟨2, "z", "d", "q"⟩] (by decide),
    update_frame.2 [⟨1, "a", "b", "p"⟩, ⟨2, "c", "d", "q"⟩] 2 ⟨2, "c", "d", "q"⟩ (by decide)⟩

/-- C9: on a table whose ids are unique (the store invariant) and which
contains the id, delete removes exactly that row and no other, keeping
order; getById then answers 404, listAll shrinks by exactly one, and the
response is the acknowledgment message with no record payload. -/
theorem delete_removes_exactly_one (df : Table) (item_id : Int) (r0 : Item)
    (hu : uniqueId df) (hr0 : r0 ∈ df) (hid : r0.id = item_id) :
    ∃ pre post, df = pre ++ r0 :: post ∧
      delete_item item_id df = (.okMessage "Item deleted successfully", pre ++ post) ∧
      get_item item_id (pre ++ post) = (.httpError 404 "Item not found", pre ++ post) ∧
      (pre ++ post).length + 1 = df.length ∧
      get_all_items (pre ++ post) = (.okList (pre ++ post), pre ++ post) := by
  obtain ⟨pre, post, hdf⟩ := List.append_of_mem hr0
  subst hdf
  unfold uniqueId at hu
  rw [List.map_append, List.map_cons, List.nodup_append] at hu
  obtain ⟨-, h2, hdisj⟩ := hu
  rw [List.nodup_cons] at h2
  obtain ⟨hnotpost, -⟩ := h2
  have hpre : ∀ p ∈ pre, p.id ≠ item_id := by
    intro p hp he
    exact hdisj (List.mem_map_of_mem _ hp)
      (by rw [he, ← hid]; exact List.mem_cons_self _ _)
  have hpost : ∀ p ∈ post, p.id ≠ item_id := by
    intro p hp he
    exact hnotpost (by rw [hid, ← he]; exact List.mem_map_of_mem _ hp)
  have hall : ∀ p ∈ pre ++ post, p.id ≠ item_id := by
    intro p hp
    rcases List.mem_append.mp hp with h | h
    · exact hpre p h
    · exact hpost p h
  have hne : (pre ++ r0 :: post).isEmpty = false := by
    simp [List.isEmpty_iff]
  have hany : (pre ++ r0 :: post).any (fun q => q.id == item_id) = true :=
    List.any_eq_true.mpr ⟨r0, by simp, by rw [beq_iff_eq]; exact hid⟩
  have hr0false : (!(r0.id == item_id)) = false := by
    simp [hid]
  have hfilter : (pre ++ r0 :: post).filter (fun r => !(r.id == item_id))
      = pre ++ post := by
    rw [List.filter_append, List.filter_cons, hr0false]
    simp only [Bool.false_eq_true, if_false]
    congr 1
    · exact List.filter_eq_self.mpr fun a ha => by
        simp only [Bool.not_eq_true', beq_eq_false_iff_ne, ne_eq]
        exact hpre a ha
    · exact List.filter_eq_self.mpr fun a ha => by
        simp only [Bool.not_eq_true', beq_eq_false_iff_ne, ne_eq]
        exact hpost a ha
  refine ⟨pre, post, rfl, ?_, get_item_404 _ _ hall, ?_, get_all_items_eq _⟩
  · unfold delete_item
    rw [hne, hany, hfilter]
    rfl
  · simp only [List.length_append, List.length_cons]
    omega

/-- C9 witness: deleting id 2 from a three-row table removes exactly the
middle row; getById 2 then fails 404 and the table has one row fewer. -/
theorem delete_removes_exactly_one_witness :
    ∃ pre post,
      ([(⟨1, "a", "b", "p"⟩ : Item), ⟨2, "c", "d", "q"⟩, ⟨3, "e", "f", "r"⟩] : Table)
          = pre ++ (⟨2, "c", "d", "q"⟩ : Item) :: post ∧
      delete_item 2 [(⟨1, "a", "b", "p"⟩ : Item), ⟨2, "c", "d", "q"⟩, ⟨3, "e", "f", "r"⟩]
          = (.okMessage "Item deleted successfully", pre ++ post) ∧
      get_item 2 (pre ++ post) = (.httpError 404 "Item not found", pre ++ post) ∧
      (pre ++ post).length + 1
          = ([(⟨1, "a", "b", "p"⟩ : Item), ⟨2, "c", "d", "q"⟩, ⟨3, "e", "f", "r"⟩] : Table).length ∧
      get_all_items (pre ++ post) = (.okList (pre ++ post), pre ++ post) :=
  delete_removes_exactly_one _ 2 ⟨2, "c", "d", "q"⟩ (by decide) (by decide) (by decide)

/-- C1 counterexample: fiscal-code uniqueness is NOT preserved by every
operation on every reachable state.  The state
[{1, a, b, ""}, {2, c, d, "x"}] is reachable (create with an empty fiscal
code is allowed on an empty table — the create check is guarded by
`not df.empty`), has pairwise-distinct fiscal codes, and updating record 2
to the empty fiscal code bypasses the duplicate check and produces two rows
with fiscal code "". -/
theorem fiscal_uniqueness_invariant_cex :
    applyOp (.create ⟨"c", "d", "x"⟩) (applyOp (.create ⟨"a", "b", ""⟩) ([] : Table))
        = [(⟨1, "a", "b", ""⟩ : Item), ⟨2, "c", "d", "x"⟩] ∧
    Reachable [(⟨1, "a", "b", ""⟩ : Item), ⟨2, "c", "d", "x"⟩] ∧
    uniqueCF [(⟨1, "a", "b", ""⟩ : Item), ⟨2, "c", "d", "x"⟩] ∧
    ¬ uniqueCF (applyOp (.update 2 ⟨none, none, some ""⟩)
        [(⟨1, "a", "b", ""⟩ : Item), ⟨2, "c", "d", "x"⟩]) := by
  have e : applyOp (.create ⟨"c", "d", "x"⟩) (applyOp (.create ⟨"a", "b", ""⟩) ([] : Table))
      = [(⟨1, "a", "b", ""⟩ : Item), ⟨2, "c", "d", "x"⟩] := by decide
  refine ⟨e, ?_, by decide, by decide⟩
  exact e ▸ Reachable.step (.create ⟨"c", "d", "x"⟩)
    (Reachable.step (.create ⟨"a", "b", ""⟩) Reachable.empty)

/-- C1 amended: on every reachable state with pairwise-distinct fiscal
codes, create and delete always preserve the uniqueness invariant, and
update preserves it provided the supplied fiscal code (if any) is not the
empty string; an empty-string fiscal code supplied to update skips the
duplicate check and can break the invariant. -/
theorem fiscal_uniqueness_invariant_amended (df : Table) (op : Op)
    (hreach : Reachable df) (hcf : uniqueCF df)
    (hop : ∀ i u, op = Op.update i u → u.codice_fiscale ≠ some "") :
    uniqueCF (applyOp op df) := by
  have hid := reachable_uniqueId df hreach
  cases op with
  | create x => exact create_preserves_uniqueCF x df hcf
  | update i u => exact update_preserves_uniqueCF i u df hcf hid (hop i u rfl)
  | delete i => exact delete_preserves_uniqueCF i df hcf

/-- C1 witness: the amended invariant applied to a create on the empty
table. -/
theorem fiscal_uniqueness_invariant_amended_witness :
    uniqueCF ([] : Table) ∧ uniqueCF (applyOp (.create ⟨"a", "b", "x"⟩) ([] : Table)) :=
  ⟨by decide, fiscal_uniqueness_invariant_amended [] (.create ⟨"a", "b", "x"⟩)
    Reachable.empty (by decide) (fun i u h => Op.noConfusion h)⟩

end CsvCrud
